import Mathlib

/-!
Shallow embedding of the Egyptian-ID OCR pipeline core
(`services/utils.py`, `services/detection_service.py`,
`services/crop_service.py`, `services/ocr_service.py`).

Modelling conventions:
* Python `str` is modelled as `List Char` (with `String` wrappers named after
  the Python functions).
* Python float arithmetic is modelled exactly over `ℚ`; `int(q)` is truncation
  toward zero.  For the quantities appearing here (`int(0.01*d)`,
  `int(w*(max_size/h))`, `int(h*scale)` and the coordinate rescale) the IEEE
  rounding of the Python expressions agrees with the exact rational value on
  the whole relevant input range, so the model is faithful there.
* Python dicts are modelled as association lists with insertion order and
  assignment-overwrites-in-place semantics (`insertAssoc`).
-/

namespace EgyptianID

/-- `EASTERN_ARABIC_DIGITS` table of `utils.py` as a character map:
`dict.get(ch, ch)` maps a Western digit to its Eastern-Arabic glyph and is the
identity elsewhere. -/
def EASTERN_ARABIC_DIGITS (c : Char) : Char :=
  match c with
  | '0' => '٠'
  | '1' => '١'
  | '2' => '٢'
  | '3' => '٣'
  | '4' => '٤'
  | '5' => '٥'
  | '6' => '٦'
  | '7' => '٧'
  | '8' => '٨'
  | '9' => '٩'
  | _ => c

/-- `EASTERN_TO_ENGLISH` table of `utils.py` as a character map. -/
def EASTERN_TO_ENGLISH (c : Char) : Char :=
  match c with
  | '٠' => '0'
  | '١' => '1'
  | '٢' => '2'
  | '٣' => '3'
  | '٤' => '4'
  | '٥' => '5'
  | '٦' => '6'
  | '٧' => '7'
  | '٨' => '8'
  | '٩' => '9'
  | _ => c

/-- `to_eastern_arabic_numerals` of `utils.py` (append loop + join = map). -/
def to_eastern_arabic_numerals (s : String) : String :=
  String.mk (s.data.map EASTERN_ARABIC_DIGITS)

/-- `to_english_numerals` of `utils.py`. -/
def to_english_numerals (s : String) : String :=
  String.mk (s.data.map EASTERN_TO_ENGLISH)

/-- Python `str.isdigit`, restricted to the digit scripts this pipeline
produces (ASCII and Eastern-Arabic digits).  Python also accepts decimal
digits of further Unicode scripts; none of those occur in the inputs the
claims quantify over. -/
def pyIsDigit (c : Char) : Bool :=
  c.isDigit || (0x660 ≤ c.toNat && c.toNat ≤ 0x669)

/-- Decimal value of one digit character as Python `int()` reads it
(ASCII or Eastern-Arabic). -/
def pyDigitVal (c : Char) : ℕ :=
  if 0x660 ≤ c.toNat && c.toNat ≤ 0x669 then c.toNat - 0x660 else c.toNat - 48

/-- Python `int()` on a string of digit characters. -/
def pyIntOfDigits (cs : List Char) : ℕ :=
  cs.foldl (fun a c => 10 * a + pyDigitVal c) 0

/-- Proleptic-Gregorian leap year, as `datetime` uses. -/
def isLeapYear (y : ℕ) : Bool :=
  y % 4 == 0 && (y % 100 != 0 || y % 400 == 0)

/-- Days in a month, as `datetime` uses. -/
def daysInMonth (y m : ℕ) : ℕ :=
  if m = 2 then (if isLeapYear y then 29 else 28)
  else if m = 4 ∨ m = 6 ∨ m = 9 ∨ m = 11 then 30
  else 31

/-- Validity check performed by the `datetime(year, month, day)` constructor:
year in `MINYEAR..MAXYEAR`, month in `1..12`, day in `1..daysInMonth`. -/
def dateValid (y m d : ℕ) : Bool :=
  1 ≤ y && y ≤ 9999 && 1 ≤ m && m ≤ 12 && 1 ≤ d && d ≤ daysInMonth y m

/-- Zero-padded two-digit rendering used by `strftime` fields `%d` and `%m`. -/
def pad2 (n : ℕ) : String :=
  if n < 10 then "0" ++ toString n else toString n

/-- `dt.strftime("%d/%m/%Y")`: for the years arising here (1900–2099) the
`%Y` field is the plain four-digit decimal year. -/
def formatDate (y m d : ℕ) : String :=
  pad2 d ++ "/" ++ pad2 m ++ "/" ++ toString y

/-- Core of `derive_birthdate_from_national_id` of `utils.py`, over the
character list of the input string. -/
def deriveCore (cs : List Char) : String :=
  if cs.length < 7 then ""
  else if ¬ cs.all pyIsDigit then ""
  else
    match cs with
    | c0 :: c1 :: c2 :: c3 :: c4 :: c5 :: c6 :: _ =>
      if c0 = '2' ∨ c0 = '3' then
        let century : ℕ := if c0 = '2' then 1900 else 2000
        let year := century + pyIntOfDigits [c1, c2]
        let month := pyIntOfDigits [c3, c4]
        let day := pyIntOfDigits [c5, c6]
        if dateValid year month day then formatDate year month day else ""
      else ""
    | _ => ""

/-- `derive_birthdate_from_national_id` of `utils.py`. -/
def derive_birthdate_from_national_id (s : String) : String :=
  deriveCore s.data

/-! ## Detection (`services/detection_service.py`) -/

/-- Python `int()` on a rational value: truncation toward zero. -/
def pyInt (q : ℚ) : ℤ :=
  if q < 0 then -(Int.floor (-q)) else Int.floor q

/-- Bounding box `(x1, y1, x2, y2)`. -/
abbrev Box := ℤ × ℤ × ℤ × ℤ

/-- One raw model output entry: a frame-space box (already converted through
`int(v) for v in b.tolist()`), an integer class id (`int(l)`) and a confidence
score (`float(s)`). -/
structure RawDetection where
  box : Box
  label : ℤ
  score : ℚ
deriving DecidableEq, Repr

/-- `CUSTOM_CLASSES` table of `detection_service.py` (`dict.get`, `None` when
absent). -/
def CUSTOM_CLASSES (classId : ℤ) : Option String :=
  match classId with
  | 1 => some "Add1"
  | 2 => some "Add2"
  | 3 => some "BD"
  | 4 => some "Name1"
  | 5 => some "Name2"
  | 6 => some "Num1"
  | 7 => some "Num2"
  | _ => none

/-- Python dict assignment `m[k] = v`: overwrite in place, else append
(dicts preserve insertion order). -/
def insertAssoc {α : Type} (m : List (String × α)) (k : String) (v : α) :
    List (String × α) :=
  if m.any (fun p => p.1 = k) then
    m.map (fun p => if p.1 = k then (k, v) else p)
  else
    m ++ [(k, v)]

/-- Coordinate rescale of `detect`: `int(v * (side / 293.0))` for a frame
coordinate `v` and original-image side length `side`. -/
def rescaleCoord (v : ℤ) (side : ℕ) : ℤ :=
  pyInt ((v : ℚ) * ((side : ℚ) / 293))

/-- Frame-to-original rescale of a whole box (step before padding). -/
def rescaleBox (b : Box) (width height : ℕ) : Box :=
  (rescaleCoord b.1 width, rescaleCoord b.2.1 height,
   rescaleCoord b.2.2.1 width, rescaleCoord b.2.2.2 height)

/-- Padding-and-clamping stage of `detect`, applied to a rescaled box:
`pad_x = max(2, int(0.01*(x2-x1)))`, `pad_y = max(2, int(0.01*(y2-y1)))`,
then `x1 = max(0, x1-pad_x)`, `y1 = max(0, y1-pad_y)`,
`x2 = min(width, x2+pad_x)`, `y2 = min(height, y2+pad_y)`. -/
def padClampBox (b : Box) (width height : ℕ) : Box :=
  let x1 := b.1
  let y1 := b.2.1
  let x2 := b.2.2.1
  let y2 := b.2.2.2
  let padX := max 2 (pyInt ((1 / 100 : ℚ) * ((x2 - x1 : ℤ) : ℚ)))
  let padY := max 2 (pyInt ((1 / 100 : ℚ) * ((y2 - y1 : ℤ) : ℚ)))
  (max 0 (x1 - padX), max 0 (y1 - padY),
   min (width : ℤ) (x2 + padX), min (height : ℤ) (y2 + padY))

/-- Loop body of `detect` for one raw detection: `none` when the entry is
skipped (score below threshold, or class id not in `CUSTOM_CLASSES`),
otherwise the label and the rescaled, padded, clamped box. -/
def processDet (width height : ℕ) (thresh : ℚ) (d : RawDetection) :
    Option (String × Box) :=
  if d.score < thresh then none
  else
    match CUSTOM_CLASSES d.label with
    | none => none
    | some label => some (label, padClampBox (rescaleBox d.box width height) width height)

/-- One iteration of the `detect` loop on the accumulated `result` dict. -/
def detectStep (width height : ℕ) (thresh : ℚ) (m : List (String × Box))
    (d : RawDetection) : List (String × Box) :=
  match processDet width height thresh d with
  | none => m
  | some (l, b) => insertAssoc m l b

/-- `DetectionService.detect` of `detection_service.py`, as a function of the
raw model outputs (the zipped `boxes`, `labels`, `scores`), the score
threshold and the original image size.  `Except.error` models the
`raise ValueError("No detections above threshold")`. -/
def detect (frame : List RawDetection) (thresh : ℚ) (width height : ℕ) :
    Except String (List (String × Box)) :=
  let result := frame.foldl (detectStep width height thresh) []
  if result = [] then Except.error "No detections above threshold" else Except.ok result

/-! ## Cropping (`services/crop_service.py`) -/

/-- Coordinate clamp at the top of the `crop_regions` loop:
`x1c, y1c = max(0, x1), max(0, y1)`; `x2c, y2c = max(x1c+1, x2), max(y1c+1, y2)`. -/
def clampCropBox (b : Box) : Box :=
  let x1c := max 0 b.1
  let y1c := max 0 b.2.1
  (x1c, y1c, max (x1c + 1) b.2.2.1, max (y1c + 1) b.2.2.2)

/-- Length of the numpy slice `a:b` of an axis of size `n`, for `0 ≤ a`
(numpy clips slice bounds to the array). -/
def sliceLen (n : ℕ) (a b : ℤ) : ℕ :=
  (min b (n : ℤ) - min a (n : ℤ)).toNat

/-- The max-size / min-size resize rules of `crop_regions`, applied to crop
dimensions `(h, w)` after the `Num1` doubling; returns the final `(h, w)`. -/
def sizeRules (maxSize h w : ℕ) : ℕ × ℕ :=
  if maxSize < h ∨ maxSize < w then
    if w < h then
      (maxSize, (pyInt ((w : ℚ) * ((maxSize : ℚ) / (h : ℚ)))).toNat)
    else
      ((pyInt ((h : ℚ) * ((maxSize : ℚ) / (w : ℚ)))).toNat, maxSize)
  else if h < 32 ∨ w < 32 then
    let scale : ℚ := max ((64 : ℚ) / (h : ℚ)) ((64 : ℚ) / (w : ℚ))
    ((pyInt ((h : ℚ) * scale)).toNat, (pyInt ((w : ℚ) * scale)).toNat)
  else (h, w)

/-- Per-crop sizing policy of `crop_regions`: the `Num1` doubling followed by
`sizeRules`. -/
def cropResize (label : String) (maxSize h w : ℕ) : ℕ × ℕ :=
  sizeRules maxSize (if label = "Num1" then h * 2 else h)
    (if label = "Num1" then w * 2 else w)

/-- One iteration of the `crop_regions` loop on the accumulated crop map. -/
def cropStep (height width maxSize : ℕ) (m : List (String × (ℕ × ℕ)))
    (p : String × Box) : List (String × (ℕ × ℕ)) :=
  let label := p.1
  if label = "BD" then m
  else
    let c := clampCropBox p.2
    if c.2.2.1 ≤ c.1 ∨ c.2.2.2 ≤ c.2.1 then m
    else
      let h := sliceLen height c.2.1 c.2.2.2
      let w := sliceLen width c.1 c.2.2.1
      if h = 0 ∨ w = 0 then m
      else insertAssoc m label (cropResize label maxSize h w)

/-- `CropService.crop_regions` of `crop_service.py`, modelled on the final
crop dimensions instead of the written files: for each label it records the
`(h, w)` of the crop it writes for that label.  `imwrite` failures only skip
a label and are modelled as successful writes. -/
def crop_regions (height width maxSize : ℕ) (detections : List (String × Box)) :
    List (String × (ℕ × ℕ)) :=
  detections.foldl (cropStep height width maxSize) []

/-! ## OCR (`services/ocr_service.py`) -/

/-- Outcome of one OCR task in the `run_ocr` loop.  `fail` covers every
caught failure path (model initialization failure, image validation failure,
`predict` raising): each of those stores `[]` in `results[label]`.  `ok r`
is a successful `predict` call; each element of `r` is the `rec_texts` list
of one OCRResult record (a record without usable `rec_texts` is `[]`). -/
inductive OcrCall where
  | fail
  | ok (result : List (List String))
deriving DecidableEq, Repr

/-- What the loop stores in `results[label]`. -/
def callResult : OcrCall → List (List String)
  | OcrCall.fail => []
  | OcrCall.ok r => r

/-- `get_text` of `run_ocr`: first record's `rec_texts`, reversed for
Arabic-dispatched labels when it has more than one token, `[]` otherwise. -/
def getText (result : List (List String)) (reverseOrder : Bool) : List String :=
  match result with
  | [] => []
  | first :: _ =>
    if first ≠ [] then
      if reverseOrder && decide (1 < first.length) then first.reverse else first
    else []

/-- Python `str.strip()`: drop leading and trailing whitespace. -/
def pyStrip (cs : List Char) : List Char :=
  ((cs.dropWhile Char.isWhitespace).reverse.dropWhile Char.isWhitespace).reverse

/-- The six per-label OCR outcomes `run_ocr` observes for its fixed task list
`[Add1, Add2, Name1, Name2, Num1, Num2]`. -/
structure OcrEnv where
  add1 : OcrCall
  add2 : OcrCall
  name1 : OcrCall
  name2 : OcrCall
  num1 : OcrCall
  num2 : OcrCall

/-- The birth-date block at the end of `run_ocr`: from the `Num1` token list,
take the first token, strip it, normalize Eastern-Arabic numerals, keep only
digit characters, and derive the date when at least 7 digits remain. -/
def bdFromNum1 (tNum1 : List String) : List String :=
  match tNum1 with
  | [] => []
  | t :: _ =>
    let num1Digits := ((pyStrip t.data).map EASTERN_TO_ENGLISH).filter pyIsDigit
    if 7 ≤ num1Digits.length then
      let bd := deriveCore num1Digits
      if bd ≠ "" then [bd] else []
    else []

/-- `OCRService.run_ocr` of `ocr_service.py`, as a function of the six OCR
task outcomes; the returned association list is the `ocr_result` dict (its
keys in insertion order). -/
def run_ocr (env : OcrEnv) : List (String × List String) :=
  let tAdd1 := getText (callResult env.add1) true
  let tAdd2 := getText (callResult env.add2) true
  let tName1 := getText (callResult env.name1) true
  let tName2 := getText (callResult env.name2) true
  let tNum1 := getText (callResult env.num1) true
  let tNum2 := getText (callResult env.num2) false
  [("Add1", tAdd1), ("Add2", tAdd2), ("Name1", tName1), ("Name2", tName2),
   ("Num1", tNum1), ("Num2", tNum2), ("BD", bdFromNum1 tNum1)]

/-! ## Helper lemmas -/

/-- The ten ASCII digit characters. -/
def asciiDigits : List Char := ['0', '1', '2', '3', '4', '5', '6', '7', '8', '9']

/-- The ten Eastern-Arabic digit glyphs. -/
def easternGlyphs : List Char := ['٠', '١', '٢', '٣', '٤', '٥', '٦', '٧', '٨', '٩']

lemma toNat_bounds_of_isDigit (c : Char) (h : c.isDigit = true) :
    48 ≤ c.toNat ∧ c.toNat ≤ 57 := by
  simp [Char.isDigit] at h
  exact ⟨h.1, h.2⟩

lemma mem_asciiDigits_of_isDigit (c : Char) (h : c.isDigit = true) :
    c ∈ asciiDigits := by
  obtain ⟨h1, h2⟩ := toNat_bounds_of_isDigit c h
  have hc : c.toNat = 48 ∨ c.toNat = 49 ∨ c.toNat = 50 ∨ c.toNat = 51 ∨
      c.toNat = 52 ∨ c.toNat = 53 ∨ c.toNat = 54 ∨ c.toNat = 55 ∨
      c.toNat = 56 ∨ c.toNat = 57 := by omega
  rcases hc with h | h | h | h | h | h | h | h | h | h <;>
    (rw [← Char.ofNat_toNat c, h]; decide)

lemma pyIsDigit_of_isDigit (c : Char) (h : c.isDigit = true) :
    pyIsDigit c = true := by
  simp [pyIsDigit, h]

lemma all_pyIsDigit_of_all_isDigit (cs : List Char)
    (h : cs.all Char.isDigit = true) : cs.all pyIsDigit = true := by
  simp only [List.all_eq_true] at h ⊢
  exact fun c hc => pyIsDigit_of_isDigit c (h c hc)

lemma pyDigitVal_of_isDigit (c : Char) (h : c.isDigit = true) :
    pyDigitVal c = c.toNat - 48 := by
  obtain ⟨_, h2⟩ := toNat_bounds_of_isDigit c h
  simp only [pyDigitVal]
  rw [if_neg]
  simp
  omega

lemma exists_cons7 (cs : List Char) (h : 7 ≤ cs.length) :
    ∃ c0 c1 c2 c3 c4 c5 c6 rest,
      cs = c0 :: c1 :: c2 :: c3 :: c4 :: c5 :: c6 :: rest := by
  rcases cs with _ | ⟨c0, cs⟩; · simp at h
  rcases cs with _ | ⟨c1, cs⟩; · simp at h
  rcases cs with _ | ⟨c2, cs⟩; · simp at h
  rcases cs with _ | ⟨c3, cs⟩; · simp at h
  rcases cs with _ | ⟨c4, cs⟩; · simp at h
  rcases cs with _ | ⟨c5, cs⟩; · simp at h
  rcases cs with _ | ⟨c6, cs⟩; · simp at h
  exact ⟨c0, c1, c2, c3, c4, c5, c6, cs, rfl⟩

/-- The result of `deriveCore` on a string of 7+ digit characters, as a
function of its first seven characters. -/
def deriveFrom7 (c0 c1 c2 c3 c4 c5 c6 : Char) : String :=
  if c0 = '2' ∨ c0 = '3' then
    let century : ℕ := if c0 = '2' then 1900 else 2000
    let year := century + pyIntOfDigits [c1, c2]
    let month := pyIntOfDigits [c3, c4]
    let day := pyIntOfDigits [c5, c6]
    if dateValid year month day then formatDate year month day else ""
  else ""

lemma deriveCore_cons7 (c0 c1 c2 c3 c4 c5 c6 : Char) (rest : List Char)
    (h : (c0 :: c1 :: c2 :: c3 :: c4 :: c5 :: c6 :: rest).all pyIsDigit = true) :
    deriveCore (c0 :: c1 :: c2 :: c3 :: c4 :: c5 :: c6 :: rest) =
      deriveFrom7 c0 c1 c2 c3 c4 c5 c6 := by
  unfold deriveCore deriveFrom7
  rw [if_neg (by simp), if_neg (by simp [h])]

lemma ete_ead_of_isDigit (c : Char) (h : c.isDigit = true) :
    EASTERN_TO_ENGLISH (EASTERN_ARABIC_DIGITS c) = c := by
  have hm := mem_asciiDigits_of_isDigit c h
  fin_cases hm <;> decide

lemma pyInt_intCast_div_natCast (n : ℤ) (d : ℕ) (hn : 0 ≤ n) :
    pyInt ((n : ℚ) / (d : ℚ)) = n / (d : ℤ) := by
  unfold pyInt
  rw [if_neg (not_lt.mpr (by positivity))]
  exact Rat.floor_intCast_div_natCast n d

lemma pyInt_hundredth (dx : ℤ) (h : 0 ≤ dx) :
    pyInt ((1 / 100 : ℚ) * (dx : ℚ)) = dx / 100 := by
  have he : (1 / 100 : ℚ) * (dx : ℚ) = (dx : ℚ) / ((100 : ℕ) : ℚ) := by
    push_cast
    ring
  rw [he, pyInt_intCast_div_natCast dx 100 h]
  norm_num

lemma rescaleCoord_eq_ediv (v : ℤ) (side : ℕ) (hv : 0 ≤ v) :
    rescaleCoord v side = (v * side) / 293 := by
  unfold rescaleCoord
  have he : (v : ℚ) * ((side : ℚ) / 293) = ((v * (side : ℤ) : ℤ) : ℚ) / ((293 : ℕ) : ℚ) := by
    push_cast
    ring
  rw [he, pyInt_intCast_div_natCast _ _ (mul_nonneg hv (by positivity))]
  norm_num

lemma pyInt_nat_mul_div (a b c : ℕ) :
    (pyInt ((a : ℚ) * ((b : ℚ) / (c : ℚ)))).toNat = a * b / c := by
  have he : (a : ℚ) * ((b : ℚ) / (c : ℚ)) = (((a * b : ℕ) : ℤ) : ℚ) / ((c : ℕ) : ℚ) := by
    push_cast
    ring
  rw [he, pyInt_intCast_div_natCast _ _ (by positivity)]
  rw [← Int.ofNat_ediv]
  exact Int.toNat_natCast _

lemma padClampBox_eval (x1 y1 x2 y2 : ℤ) (W H : ℕ) (hx : x1 ≤ x2)
    (hy : y1 ≤ y2) :
    padClampBox (x1, y1, x2, y2) W H =
      (max 0 (x1 - max 2 ((x2 - x1) / 100)), max 0 (y1 - max 2 ((y2 - y1) / 100)),
       min (W : ℤ) (x2 + max 2 ((x2 - x1) / 100)),
       min (H : ℤ) (y2 + max 2 ((y2 - y1) / 100))) := by
  simp only [padClampBox, pyInt_hundredth (x2 - x1) (by omega),
    pyInt_hundredth (y2 - y1) (by omega)]

/-- Evaluation helper: `detect` on a single raw detection that survives. -/
lemma detect_singleton (d : RawDetection) (thresh : ℚ) (width height : ℕ)
    (p : String × Box) (h : processDet width height thresh d = some p) :
    detect [d] thresh width height = Except.ok [p] := by
  unfold detect
  simp [detectStep, h, insertAssoc]

lemma processDet_eval (width height : ℕ) (thresh : ℚ) (d : RawDetection)
    (l : String) (hs : ¬ d.score < thresh) (hl : CUSTOM_CLASSES d.label = some l) :
    processDet width height thresh d =
      some (l, padClampBox (rescaleBox d.box width height) width height) := by
  unfold processDet
  rw [if_neg hs, hl]

/-! ## Claim theorems -/

/-- C10: in `crop_regions`, the clamped coordinates
`x1c = max(0, x1)`, `y1c = max(0, y1)`, `x2c = max(x1c+1, x2)`,
`y2c = max(y1c+1, y2)` always satisfy `x2c > x1c` and `y2c > y1c`, so the
degenerate-dimensions skip branch (`x2c <= x1c or y2c <= y1c`) is
unreachable for every input box. -/
theorem C10_crop_clamp_never_degenerate (x1 y1 x2 y2 : ℤ) :
    (clampCropBox (x1, y1, x2, y2)).1 < (clampCropBox (x1, y1, x2, y2)).2.2.1 ∧
    (clampCropBox (x1, y1, x2, y2)).2.1 < (clampCropBox (x1, y1, x2, y2)).2.2.2 ∧
    ¬ ((clampCropBox (x1, y1, x2, y2)).2.2.1 ≤ (clampCropBox (x1, y1, x2, y2)).1 ∨
       (clampCropBox (x1, y1, x2, y2)).2.2.2 ≤ (clampCropBox (x1, y1, x2, y2)).2.1) := by
  simp only [clampCropBox]
  omega

/-- C8: the numeral normalization `to_english_numerals` is a total bijection
on the 10 Eastern-Arabic digit glyphs (each maps to a Western digit,
injectively and onto), is the identity on every other character, and
`to_english_numerals (to_eastern_arabic_numerals s) = s` for every
digit-only string `s`. -/
theorem C8_numeral_normalization_bijection :
    (∀ c ∈ easternGlyphs, EASTERN_TO_ENGLISH c ∈ asciiDigits) ∧
    (∀ c ∈ easternGlyphs, ∀ d ∈ easternGlyphs,
        EASTERN_TO_ENGLISH c = EASTERN_TO_ENGLISH d → c = d) ∧
    (∀ w ∈ asciiDigits, ∃ c ∈ easternGlyphs, EASTERN_TO_ENGLISH c = w) ∧
    (∀ c, c ∉ easternGlyphs → EASTERN_TO_ENGLISH c = c) ∧
    (∀ s : String, s.data.all Char.isDigit = true →
        to_english_numerals (to_eastern_arabic_numerals s) = s) := by
  refine ⟨by decide, by decide, by decide, ?_, ?_⟩
  · intro c hc
    unfold EASTERN_TO_ENGLISH
    split <;> simp_all [easternGlyphs]
  · intro s hs
    unfold to_english_numerals to_eastern_arabic_numerals
    rcases s with ⟨data⟩
    simp only [List.map_map]
    congr 1
    induction data with
    | nil => rfl
    | cons c cs ih =>
      simp only [List.all_cons, Bool.and_eq_true] at hs
      simp only [List.map_cons, Function.comp_apply,
        ete_ead_of_isDigit c hs.1, ih hs.2]

/-- C8 witness: the bijectivity conjuncts applied to a concrete glyph and
the round trip applied to a concrete digit string. -/
theorem C8_numeral_normalization_bijection_witness :
    to_english_numerals (to_eastern_arabic_numerals "123") = "123" :=
  C8_numeral_normalization_bijection.2.2.2.2 "123" (by decide)

/-- C9: `derive_birthdate_from_national_id` consults only the first 7
characters of its input: two all-digit strings of length at least 7 that
agree on their first 7 characters yield the same result. -/
theorem C9_derive_depends_only_on_first7 (s t : String)
    (hs : s.data.all Char.isDigit = true) (ht : t.data.all Char.isDigit = true)
    (hls : 7 ≤ s.length) (hlt : 7 ≤ t.length)
    (hpre : s.data.take 7 = t.data.take 7) :
    derive_birthdate_from_national_id s = derive_birthdate_from_national_id t := by
  have hls2 : 7 ≤ s.data.length := hls
  have hlt2 : 7 ≤ t.data.length := hlt
  obtain ⟨a0, a1, a2, a3, a4, a5, a6, ra, hsd⟩ := exists_cons7 s.data hls2
  obtain ⟨b0, b1, b2, b3, b4, b5, b6, rb, htd⟩ := exists_cons7 t.data hlt2
  rw [hsd] at hs
  rw [htd] at ht
  rw [hsd, htd] at hpre
  simp only [List.take_succ_cons, List.take_zero, List.cons.injEq, and_true] at hpre
  obtain ⟨e0, e1, e2, e3, e4, e5, e6⟩ := hpre
  unfold derive_birthdate_from_national_id
  rw [hsd, htd,
    deriveCore_cons7 _ _ _ _ _ _ _ _ (all_pyIsDigit_of_all_isDigit _ hs),
    deriveCore_cons7 _ _ _ _ _ _ _ _ (all_pyIsDigit_of_all_isDigit _ ht),
    e0, e1, e2, e3, e4, e5, e6]

/-- C9 witness: two concrete digit strings sharing their first 7 characters. -/
theorem C9_derive_depends_only_on_first7_witness :
    derive_birthdate_from_national_id "29001017777777" =
      derive_birthdate_from_national_id "2900101" :=
  C9_derive_depends_only_on_first7 "29001017777777" "2900101"
    (by decide) (by decide) (by decide) (by decide) (by decide)

/-- Claim-side value of a two-character digit group (`10*d1 + d0` on ASCII
digit values). -/
def twoDigitVal (a b : Char) : ℕ :=
  10 * (a.toNat - 48) + (b.toNat - 48)

lemma pyIntOfDigits_two (a b : Char) (ha : a.isDigit = true)
    (hb : b.isDigit = true) : pyIntOfDigits [a, b] = twoDigitVal a b := by
  simp [pyIntOfDigits, pyDigitVal_of_isDigit a ha, pyDigitVal_of_isDigit b hb,
    twoDigitVal]

/-- C1: on an all-digit input of length ≥ 7 whose first digit is `2` or `3`
and whose month/day digits form a real calendar date in the derived year,
`derive_birthdate_from_national_id` returns `DD/MM/YYYY` with zero-padded
day and month and year equal to 1900 (century `2`) or 2000 (century `3`)
plus the two-digit offset; it returns `""` when the century code is not in
`{2,3}`, when the month is `00` or above 12, when the day is `00` or not a
valid day of that month in that year, or when the input is shorter than 7
characters. -/
theorem C1_derive_birthdate_correct (c0 c1 c2 c3 c4 c5 c6 : Char)
    (rest : List Char)
    (hdig : (c0 :: c1 :: c2 :: c3 :: c4 :: c5 :: c6 :: rest).all Char.isDigit = true) :
    ((c0 = '2' ∨ c0 = '3') →
      (1 ≤ twoDigitVal c3 c4 ∧ twoDigitVal c3 c4 ≤ 12 ∧
       1 ≤ twoDigitVal c5 c6 ∧
       twoDigitVal c5 c6 ≤
         daysInMonth ((if c0 = '2' then 1900 else 2000) + twoDigitVal c1 c2)
           (twoDigitVal c3 c4)) →
      derive_birthdate_from_national_id
          (String.mk (c0 :: c1 :: c2 :: c3 :: c4 :: c5 :: c6 :: rest)) =
        pad2 (twoDigitVal c5 c6) ++ "/" ++ pad2 (twoDigitVal c3 c4) ++ "/" ++
          toString ((if c0 = '2' then 1900 else 2000) + twoDigitVal c1 c2)) ∧
    (¬ (c0 = '2' ∨ c0 = '3') →
      derive_birthdate_from_national_id
          (String.mk (c0 :: c1 :: c2 :: c3 :: c4 :: c5 :: c6 :: rest)) = "") ∧
    ((twoDigitVal c3 c4 = 0 ∨ 12 < twoDigitVal c3 c4 ∨ twoDigitVal c5 c6 = 0 ∨
       daysInMonth ((if c0 = '2' then 1900 else 2000) + twoDigitVal c1 c2)
           (twoDigitVal c3 c4) < twoDigitVal c5 c6) →
      derive_birthdate_from_national_id
          (String.mk (c0 :: c1 :: c2 :: c3 :: c4 :: c5 :: c6 :: rest)) = "") ∧
    (∀ u : String, u.length < 7 → derive_birthdate_from_national_id u = "") := by
  have hkey : derive_birthdate_from_national_id
      (String.mk (c0 :: c1 :: c2 :: c3 :: c4 :: c5 :: c6 :: rest)) =
      deriveFrom7 c0 c1 c2 c3 c4 c5 c6 :=
    deriveCore_cons7 _ _ _ _ _ _ _ _ (all_pyIsDigit_of_all_isDigit _ hdig)
  simp only [List.all_cons, Bool.and_eq_true] at hdig
  obtain ⟨h0, h1, h2, h3, h4, h5, h6, _⟩ := hdig
  have e12 := pyIntOfDigits_two c1 c2 h1 h2
  have e34 := pyIntOfDigits_two c3 c4 h3 h4
  have e56 := pyIntOfDigits_two c5 c6 h5 h6
  have b1 := toNat_bounds_of_isDigit c1 h1
  have b2 := toNat_bounds_of_isDigit c2 h2
  refine ⟨?_, ?_, ?_, ?_⟩
  · intro hc hvalid
    rw [hkey]
    unfold deriveFrom7
    rw [if_pos hc, e12, e34, e56, if_pos, formatDate]
    simp only [dateValid, Bool.and_eq_true, decide_eq_true_eq]
    refine ⟨⟨⟨⟨⟨?_, ?_⟩, hvalid.1⟩, hvalid.2.1⟩, hvalid.2.2.1⟩, hvalid.2.2.2⟩
    · unfold twoDigitVal
      split <;> omega
    · unfold twoDigitVal
      split <;> omega
  · intro hc
    rw [hkey]
    unfold deriveFrom7
    rw [if_neg hc]
  · intro hInv
    rw [hkey]
    unfold deriveFrom7
    by_cases hc : c0 = '2' ∨ c0 = '3'
    · rw [if_pos hc, e12, e34, e56, if_neg]
      simp only [dateValid, Bool.and_eq_true, decide_eq_true_eq, not_and]
      intro hy _
      omega
    · rw [if_neg hc]
  · intro u hu
    unfold derive_birthdate_from_national_id deriveCore
    rw [if_pos (show u.data.length < 7 from hu)]

/-- C1 witness: national id prefix `2900101` encodes 1 January 1990. -/
theorem C1_derive_birthdate_correct_witness :
    derive_birthdate_from_national_id
      (String.mk ['2', '9', '0', '0', '1', '0', '1']) = "01/01/1990" :=
  ((C1_derive_birthdate_correct '2' '9' '0' '0' '1' '0' '1' [] (by decide)).1
    (by decide) (by decide)).trans (by decide)

/-- C2: the mapping returned by `run_ocr` always contains exactly the 7 keys
`Add1, Add2, Name1, Name2, Num1, Num2, BD` in that order, an empty token
sequence stands in for every field whose OCR task failed, and whenever the
`Num1` field is absent or yields no recognized text the `BD` entry is the
empty sequence (no exception is raised: the embedding is total). -/
theorem C2_run_ocr_total_with_all_keys (env : OcrEnv) :
    ((run_ocr env).map Prod.fst =
      ["Add1", "Add2", "Name1", "Name2", "Num1", "Num2", "BD"]) ∧
    (getText (callResult env.num1) true = [] →
      (run_ocr env).lookup "BD" = some [] ∧
      (run_ocr env).lookup "Num1" = some []) ∧
    (env.add1 = OcrCall.fail → (run_ocr env).lookup "Add1" = some []) ∧
    (env.add2 = OcrCall.fail → (run_ocr env).lookup "Add2" = some []) ∧
    (env.name1 = OcrCall.fail → (run_ocr env).lookup "Name1" = some []) ∧
    (env.name2 = OcrCall.fail → (run_ocr env).lookup "Name2" = some []) ∧
    (env.num1 = OcrCall.fail →
      (run_ocr env).lookup "Num1" = some [] ∧
      (run_ocr env).lookup "BD" = some []) ∧
    (env.num2 = OcrCall.fail → (run_ocr env).lookup "Num2" = some []) := by
  refine ⟨rfl, ?_, ?_, ?_, ?_, ?_, ?_, ?_⟩
  · intro h
    simp [run_ocr, List.lookup, h, bdFromNum1]
  · intro h
    simp [run_ocr, List.lookup, h, callResult, getText]
  · intro h
    simp [run_ocr, List.lookup, h, callResult, getText]
  · intro h
    simp [run_ocr, List.lookup, h, callResult, getText]
  · intro h
    simp [run_ocr, List.lookup, h, callResult, getText]
  · intro h
    simp [run_ocr, List.lookup, h, callResult, getText, bdFromNum1]
  · intro h
    simp [run_ocr, List.lookup, h, callResult, getText]

/-- C2 witness: all six OCR tasks fail. -/
theorem C2_run_ocr_total_with_all_keys_witness :
    (run_ocr ⟨OcrCall.fail, OcrCall.fail, OcrCall.fail, OcrCall.fail,
        OcrCall.fail, OcrCall.fail⟩).lookup "BD" = some [] :=
  ((C2_run_ocr_total_with_all_keys _).2.1 (by decide)).1

/-! ## Detection fold lemmas -/

lemma insertAssoc_ne_nil {α : Type} (m : List (String × α)) (k : String)
    (v : α) : insertAssoc m k v ≠ [] := by
  unfold insertAssoc
  split
  · rcases m with _ | ⟨p, m⟩
    · simp_all
    · simp
  · simp

lemma mem_insertAssoc {α : Type} {m : List (String × α)} {k : String} {v : α}
    {p : String × α} (h : p ∈ insertAssoc m k v) : p = (k, v) ∨ p ∈ m := by
  unfold insertAssoc at h
  split at h
  · obtain ⟨q, hq, he⟩ := List.mem_map.1 h
    by_cases hk : q.1 = k
    · rw [if_pos hk] at he
      exact Or.inl he.symm
    · rw [if_neg hk] at he
      exact Or.inr (he ▸ hq)
  · rcases List.mem_append.1 h with h2 | h2
    · exact Or.inr h2
    · exact Or.inl (List.mem_singleton.1 h2)

lemma processDet_eq_none_iff (width height : ℕ) (thresh : ℚ)
    (d : RawDetection) :
    processDet width height thresh d = none ↔
      (d.score < thresh ∨ CUSTOM_CLASSES d.label = none) := by
  by_cases h : d.score < thresh
  · simp [processDet, h]
  · cases hc : CUSTOM_CLASSES d.label <;> simp [processDet, h, hc]

lemma detectFold_eq_nil_iff (width height : ℕ) (thresh : ℚ)
    (frame : List RawDetection) (acc : List (String × Box)) :
    frame.foldl (detectStep width height thresh) acc = [] ↔
      acc = [] ∧ ∀ d ∈ frame, processDet width height thresh d = none := by
  induction frame generalizing acc with
  | nil => simp
  | cons d frame ih =>
    simp only [List.foldl_cons]
    rw [ih]
    unfold detectStep
    cases hp : processDet width height thresh d with
    | none => simp [hp]
    | some lb =>
      obtain ⟨l, b⟩ := lb
      simp [insertAssoc_ne_nil, hp]

lemma mem_detectFold {width height : ℕ} {thresh : ℚ}
    {frame : List RawDetection} {acc : List (String × Box)} {p : String × Box}
    (h : p ∈ frame.foldl (detectStep width height thresh) acc) :
    p ∈ acc ∨ ∃ d ∈ frame, processDet width height thresh d = some p := by
  induction frame generalizing acc with
  | nil => exact Or.inl (by simpa using h)
  | cons d frame ih =>
    simp only [List.foldl_cons] at h
    rcases ih h with h2 | ⟨d2, hd2, hp2⟩
    · unfold detectStep at h2
      cases hp : processDet width height thresh d with
      | none =>
        rw [hp] at h2
        exact Or.inl h2
      | some lb =>
        obtain ⟨l, b⟩ := lb
        rw [hp] at h2
        rcases mem_insertAssoc h2 with h3 | h3
        · exact Or.inr ⟨d, List.mem_cons_self d frame, by rw [hp, h3]⟩
        · exact Or.inl h3
    · exact Or.inr ⟨d2, List.mem_cons_of_mem d hd2, hp2⟩

/-- C7: `detect` fails with the no-detection error if and only if no raw
detection both clears the confidence threshold and maps to a known class
label; otherwise it returns a non-empty label-to-box mapping. -/
theorem C7_detect_error_iff_no_survivor (frame : List RawDetection)
    (thresh : ℚ) (width height : ℕ) :
    ((∃ e, detect frame thresh width height = Except.error e) ↔
      ∀ d ∈ frame, d.score < thresh ∨ CUSTOM_CLASSES d.label = none) ∧
    (∀ m, detect frame thresh width height = Except.ok m → m ≠ []) := by
  unfold detect
  by_cases hr : frame.foldl (detectStep width height thresh) [] = []
  · rw [if_pos hr]
    have hall := (detectFold_eq_nil_iff width height thresh frame []).1 hr
    constructor
    · constructor
      · intro _
        exact fun d hd => (processDet_eq_none_iff width height thresh d).1 (hall.2 d hd)
      · intro _
        exact ⟨"No detections above threshold", rfl⟩
    · intro m hm
      cases hm
  · rw [if_neg hr]
    constructor
    · constructor
      · rintro ⟨e, he⟩
        cases he
      · intro hnone
        exact absurd ((detectFold_eq_nil_iff width height thresh frame []).2
          ⟨rfl, fun d hd =>
            (processDet_eq_none_iff width height thresh d).2 (hnone d hd)⟩) hr
    · rintro m hm
      cases hm
      exact hr

lemma detect_example_add1 :
    detect [⟨(10, 10, 50, 50), 1, 1⟩] (1 / 4) 293 293 =
      Except.ok [("Add1", (8, 8, 52, 52))] := by
  apply detect_singleton
  rw [processDet_eval 293 293 (1 / 4) ⟨(10, 10, 50, 50), 1, 1⟩ "Add1"
    (by norm_num) (by rfl)]
  simp only [rescaleBox, rescaleCoord_eq_ediv 10 293 (by norm_num),
    rescaleCoord_eq_ediv 50 293 (by norm_num)]
  norm_num
  rw [padClampBox_eval 10 10 50 50 293 293 (by norm_num) (by norm_num)]
  decide

lemma detect_example_bd :
    detect [⟨(10, 10, 50, 50), 3, 1⟩] (1 / 4) 293 293 =
      Except.ok [("BD", (8, 8, 52, 52))] := by
  apply detect_singleton
  rw [processDet_eval 293 293 (1 / 4) ⟨(10, 10, 50, 50), 3, 1⟩ "BD"
    (by norm_num) (by rfl)]
  simp only [rescaleBox, rescaleCoord_eq_ediv 10 293 (by norm_num),
    rescaleCoord_eq_ediv 50 293 (by norm_num)]
  norm_num
  rw [padClampBox_eval 10 10 50 50 293 293 (by norm_num) (by norm_num)]
  decide

lemma detect_example_wide :
    detect [⟨(0, 0, 175, 2), 1, 1⟩] (1 / 4) 586 293 =
      Except.ok [("Add1", (0, 0, 353, 4))] := by
  apply detect_singleton
  rw [processDet_eval 586 293 (1 / 4) ⟨(0, 0, 175, 2), 1, 1⟩ "Add1"
    (by norm_num) (by rfl)]
  simp only [rescaleBox, rescaleCoord_eq_ediv 0 586 (by norm_num),
    rescaleCoord_eq_ediv 175 586 (by norm_num),
    rescaleCoord_eq_ediv 0 293 (by norm_num),
    rescaleCoord_eq_ediv 2 293 (by norm_num)]
  norm_num
  rw [padClampBox_eval 0 0 350 2 586 293 (by norm_num) (by norm_num)]
  decide

lemma detect_example_outside :
    detect [⟨(300, 0, 301, 10), 1, 1⟩] (1 / 4) 293 10 =
      Except.ok [("Add1", (298, 0, 293, 2))] := by
  apply detect_singleton
  rw [processDet_eval 293 10 (1 / 4) ⟨(300, 0, 301, 10), 1, 1⟩ "Add1"
    (by norm_num) (by rfl)]
  simp only [rescaleBox, rescaleCoord_eq_ediv 300 293 (by norm_num),
    rescaleCoord_eq_ediv 301 293 (by norm_num),
    rescaleCoord_eq_ediv 0 10 (by norm_num),
    rescaleCoord_eq_ediv 10 10 (by norm_num)]
  norm_num
  rw [padClampBox_eval 300 0 301 0 293 10 (by norm_num) (by norm_num)]
  decide

/-- C7 witness: an empty frame errors, a surviving detection yields a
non-empty mapping. -/
theorem C7_detect_error_iff_no_survivor_witness :
    (∃ e, detect [] (1 / 4) 293 293 = Except.error e) ∧
    ([("Add1", ((8 : ℤ), (8 : ℤ), (52 : ℤ), (52 : ℤ)))] :
        List (String × Box)) ≠ [] :=
  ⟨(C7_detect_error_iff_no_survivor [] (1 / 4) 293 293).1.2 (by simp),
   (C7_detect_error_iff_no_survivor [⟨(10, 10, 50, 50), 1, 1⟩] (1 / 4) 293 293).2
     [("Add1", (8, 8, 52, 52))] detect_example_add1⟩

/-- The padding-and-clamping stage exactly as the claim words it:
`pad_x = max(2, round(0.01*(x2-x1)))`, `pad_y = max(2, round(0.01*(y2-y1)))`,
pads subtracted from `(x1, y1)`, added to `(x2, y2)`, then clamped.
`round` is rounding to the nearest integer; at the counterexample below
(`x2-x1 = 350`, so `0.01*(x2-x1) = 3.5`) round-half-up and Python's
round-half-to-even both give `4`. -/
def padClampBoxClaimed (b : Box) (width height : ℕ) : Box :=
  let x1 := b.1
  let y1 := b.2.1
  let x2 := b.2.2.1
  let y2 := b.2.2.2
  let padX := max 2 (round ((1 / 100 : ℚ) * ((x2 - x1 : ℤ) : ℚ)))
  let padY := max 2 (round ((1 / 100 : ℚ) * ((y2 - y1 : ℤ) : ℚ)))
  (max 0 (x1 - padX), max 0 (y1 - padY),
   min (width : ℤ) (x2 + padX), min (height : ℤ) (y2 + padY))

/-- C3 counterexample: a surviving detection whose rescaled box is
`(0, 0, 350, 2)` on a 586×293 image.  The claimed rounding formula gives
`pad_x = max(2, round(3.5)) = 4` and the box `(0, 0, 354, 4)`, while the
code truncates: `pad_x = max(2, int(3.5)) = 3`, producing `(0, 0, 353, 4)`. -/
theorem C3_padding_rounding_counterexample :
    rescaleBox ((0, 0, 175, 2) : Box) 586 293 = (0, 0, 350, 2) ∧
    detect [⟨(0, 0, 175, 2), 1, 1⟩] (1 / 4) 586 293 =
      Except.ok [("Add1", (0, 0, 353, 4))] ∧
    padClampBoxClaimed ((0, 0, 350, 2) : Box) 586 293 = (0, 0, 354, 4) ∧
    ((0, 0, 353, 4) : Box) ≠ ((0, 0, 354, 4) : Box) := by
  refine ⟨?_, detect_example_wide, ?_, by decide⟩
  · simp only [rescaleBox, rescaleCoord_eq_ediv 0 586 (by norm_num),
      rescaleCoord_eq_ediv 175 586 (by norm_num),
      rescaleCoord_eq_ediv 0 293 (by norm_num),
      rescaleCoord_eq_ediv 2 293 (by norm_num)]
    decide
  · have hx : round ((1 / 100 : ℚ) * (((350 : ℤ) - 0 : ℤ) : ℚ)) = 4 := by
      rw [round_eq,
        show ((1 / 100 : ℚ) * (((350 : ℤ) - 0 : ℤ) : ℚ) + 1 / 2 : ℚ) =
          ((4 : ℤ) : ℚ) by norm_num,
        Int.floor_intCast]
    have hy : round ((1 / 100 : ℚ) * (((2 : ℤ) - 0 : ℤ) : ℚ)) = 0 := by
      rw [round_eq,
        show ((1 / 100 : ℚ) * (((2 : ℤ) - 0 : ℤ) : ℚ) + 1 / 2 : ℚ) =
          ((13 : ℤ) : ℚ) / ((25 : ℕ) : ℚ) by norm_num,
        Rat.floor_intCast_div_natCast]
      decide
    simp only [padClampBoxClaimed]
    rw [show ((0, 0, 350, 2) : Box).2.2.1 - ((0, 0, 350, 2) : Box).1 =
        ((350 : ℤ) - 0 : ℤ) by decide,
      show ((0, 0, 350, 2) : Box).2.2.2 - ((0, 0, 350, 2) : Box).2.1 =
        ((2 : ℤ) - 0 : ℤ) by decide,
      hx, hy]
    decide

/-- C3 amended: for every surviving detection, the returned box is obtained
from the rescaled box by padding with `pad_x = max(2, trunc(0.01*(x2-x1)))`
and `pad_y = max(2, trunc(0.01*(y2-y1)))` — truncation toward zero (Python
`int`), not rounding — then clamping; for boxes with `x1 ≤ x2`, `y1 ≤ y2`
the pads are the floor divisions `max 2 ((x2-x1)/100)`, and the claim's
example `(100,100,200,150)` still yields `pad_x = pad_y = 2` and
`(98, 98, 202, 152)` pre-clamp. -/
theorem C3_padding_truncation_amended (width height : ℕ) (thresh : ℚ)
    (d : RawDetection) (l : String) (hs : ¬ d.score < thresh)
    (hl : CUSTOM_CLASSES d.label = some l) :
    processDet width height thresh d =
      some (l, padClampBox (rescaleBox d.box width height) width height) ∧
    (∀ x1 y1 x2 y2 : ℤ, x1 ≤ x2 → y1 ≤ y2 → ∀ W H : ℕ,
      padClampBox (x1, y1, x2, y2) W H =
        (max 0 (x1 - max 2 ((x2 - x1) / 100)),
         max 0 (y1 - max 2 ((y2 - y1) / 100)),
         min (W : ℤ) (x2 + max 2 ((x2 - x1) / 100)),
         min (H : ℤ) (y2 + max 2 ((y2 - y1) / 100)))) ∧
    padClampBox ((100, 100, 200, 150) : Box) 10000 10000 = (98, 98, 202, 152) := by
  refine ⟨processDet_eval width height thresh d l hs hl, ?_, ?_⟩
  · intro x1 y1 x2 y2 hx hy W H
    exact padClampBox_eval x1 y1 x2 y2 W H hx hy
  · rw [padClampBox_eval 100 100 200 150 10000 10000 (by norm_num) (by norm_num)]
    decide

/-- C3 amended witness: the surviving detection of the counterexample run,
processed with the truncating pad. -/
theorem C3_padding_truncation_amended_witness :
    processDet 586 293 (1 / 4) ⟨(0, 0, 175, 2), 1, 1⟩ =
      some ("Add1",
        padClampBox (rescaleBox ((0, 0, 175, 2) : Box) 586 293) 586 293) :=
  (C3_padding_truncation_amended 586 293 (1 / 4) ⟨(0, 0, 175, 2), 1, 1⟩ "Add1"
    (by norm_num) (by rfl)).1

/-- C5 counterexample: a raw model output of class 3 above the threshold
makes `detect` return a mapping whose only key is `BD` — nothing in `detect`
filters class 3 out. -/
theorem C5_bd_in_detect_counterexample :
    (detect [⟨(10, 10, 50, 50), 3, 1⟩] (1 / 4) 293 293).toOption.map
        (List.map Prod.fst) = some ["BD"] := by
  rw [detect_example_bd]
  rfl

lemma processDet_label_mem {width height : ℕ} {thresh : ℚ} {d : RawDetection}
    {p : String × Box} (h : processDet width height thresh d = some p) :
    p.1 ∈ (["Add1", "Add2", "BD", "Name1", "Name2", "Num1", "Num2"] :
      List String) := by
  unfold processDet at h
  split at h
  · cases h
  · rcases hc : CUSTOM_CLASSES d.label with _ | l
    · rw [hc] at h
      cases h
    · rw [hc] at h
      injection h with h2
      rw [← h2]
      unfold CUSTOM_CLASSES at hc
      split at hc <;> simp_all

lemma mem_cropFold {height width maxSize : ℕ} {dets : List (String × Box)}
    {acc : List (String × (ℕ × ℕ))} {p : String × (ℕ × ℕ)}
    (h : p ∈ dets.foldl (cropStep height width maxSize) acc)
    (hacc : ∀ q ∈ acc, q.1 ≠ "BD") : p.1 ≠ "BD" := by
  induction dets generalizing acc with
  | nil => exact hacc p (by simpa using h)
  | cons b dets ih =>
    simp only [List.foldl_cons] at h
    refine ih h ?_
    intro q hq
    unfold cropStep at hq
    by_cases hbd : b.1 = "BD"
    · rw [if_pos hbd] at hq
      exact hacc q hq
    · rw [if_neg hbd] at hq
      dsimp only at hq
      split at hq
      · exact hacc q hq
      · split at hq
        · exact hacc q hq
        · rcases mem_insertAssoc hq with h3 | h3
          · rw [h3]
            exact hbd
          · exact hacc q h3

/-- C5 amended: every key of the mapping returned by `detect` lies in the
fixed label table `{Add1, Add2, BD, Name1, Name2, Num1, Num2}`, but `BD` can
appear in it (counterexample above); it is `crop_regions`, not `detect`,
that excludes `BD`: no key of a crop map is ever `BD`. -/
theorem C5_label_subset_amended :
    (∀ (frame : List RawDetection) (thresh : ℚ) (width height : ℕ)
        (m : List (String × Box)) (p : String × Box),
      detect frame thresh width height = Except.ok m → p ∈ m →
      p.1 ∈ (["Add1", "Add2", "BD", "Name1", "Name2", "Num1", "Num2"] :
        List String)) ∧
    (∀ (height width maxSize : ℕ) (dets : List (String × Box))
        (p : String × (ℕ × ℕ)),
      p ∈ crop_regions height width maxSize dets → p.1 ≠ "BD") := by
  constructor
  · intro frame thresh width height m p hok hp
    unfold detect at hok
    dsimp only at hok
    split at hok
    · cases hok
    · injection hok with h2
      rw [← h2] at hp
      rcases mem_detectFold hp with h3 | ⟨d, _, hd⟩
      · cases h3
      · exact processDet_label_mem hd
  · intro height width maxSize dets p hp
    exact mem_cropFold hp (by simp)

/-- C5 amended witness: the `BD` detection of the counterexample is in the
label table, and a concrete crop run keeps a non-`BD` key. -/
theorem C5_label_subset_amended_witness :
    (("BD", ((8 : ℤ), (8 : ℤ), (52 : ℤ), (52 : ℤ))) : String × Box).1 ∈
      (["Add1", "Add2", "BD", "Name1", "Name2", "Num1", "Num2"] :
        List String) ∧
    (("Add1", ((50 : ℕ), (50 : ℕ))) : String × (ℕ × ℕ)).1 ≠ "BD" :=
  ⟨C5_label_subset_amended.1 [⟨(10, 10, 50, 50), 3, 1⟩] (1 / 4) 293 293
     [("BD", (8, 8, 52, 52))] ("BD", (8, 8, 52, 52)) detect_example_bd
     (by decide),
   C5_label_subset_amended.2 293 293 800 [("Add1", (0, 0, 50, 50))]
     ("Add1", (50, 50)) (by decide)⟩

/-- C6 counterexample: a raw frame box `(300, 0, 301, 10)` (ordered, but
outside the 293-unit inference frame) on a 293×10 image survives and yields
the returned box `(298, 0, 293, 2)`, which violates `x1 < x2`. -/
theorem C6_box_bounds_counterexample :
    detect [⟨(300, 0, 301, 10), 1, 1⟩] (1 / 4) 293 10 =
      Except.ok [("Add1", (298, 0, 293, 2))] ∧
    ¬ ((298 : ℤ) < 293) :=
  ⟨detect_example_outside, by decide⟩

lemma rescaleCoord_nonneg (v : ℤ) (side : ℕ) (hv : 0 ≤ v) :
    0 ≤ rescaleCoord v side := by
  rw [rescaleCoord_eq_ediv v side hv]
  exact Int.ediv_nonneg (mul_nonneg hv (by positivity)) (by norm_num)

lemma rescaleCoord_mono (v w : ℤ) (side : ℕ) (hv : 0 ≤ v) (hvw : v ≤ w) :
    rescaleCoord v side ≤ rescaleCoord w side := by
  rw [rescaleCoord_eq_ediv v side hv, rescaleCoord_eq_ediv w side (by omega)]
  exact Int.ediv_le_ediv (by norm_num)
    (mul_le_mul_of_nonneg_right hvw (by positivity))

lemma rescaleCoord_le_side (v : ℤ) (side : ℕ) (hv0 : 0 ≤ v) (hv : v ≤ 293) :
    rescaleCoord v side ≤ side := by
  rw [rescaleCoord_eq_ediv v side hv0]
  calc v * side / 293 ≤ 293 * side / 293 :=
        Int.ediv_le_ediv (by norm_num)
          (mul_le_mul_of_nonneg_right hv (by positivity))
    _ = side := Int.mul_ediv_cancel_left _ (by norm_num)

lemma processDet_box_bounds {width height : ℕ} {thresh : ℚ}
    {d : RawDetection} {p : String × Box} (hW : 0 < width) (hH : 0 < height)
    (hbox : 0 ≤ d.box.1 ∧ d.box.1 ≤ d.box.2.2.1 ∧ d.box.2.2.1 ≤ 293 ∧
            0 ≤ d.box.2.1 ∧ d.box.2.1 ≤ d.box.2.2.2 ∧ d.box.2.2.2 ≤ 293)
    (h : processDet width height thresh d = some p) :
    0 ≤ p.2.1 ∧ p.2.1 < p.2.2.2.1 ∧ p.2.2.2.1 ≤ width ∧
    0 ≤ p.2.2.1 ∧ p.2.2.1 < p.2.2.2.2 ∧ p.2.2.2.2 ≤ height := by
  obtain ⟨hx1, hx12, hx2, hy1, hy12, hy2⟩ := hbox
  unfold processDet at h
  split at h
  · cases h
  · rcases hc : CUSTOM_CLASSES d.label with _ | l
    · rw [hc] at h
      cases h
    · rw [hc] at h
      injection h with h2
      rw [← h2]
      have hx1s := rescaleCoord_nonneg d.box.1 width hx1
      have hy1s := rescaleCoord_nonneg d.box.2.1 height hy1
      have hxm := rescaleCoord_mono d.box.1 d.box.2.2.1 width hx1 hx12
      have hym := rescaleCoord_mono d.box.2.1 d.box.2.2.2 height hy1 hy12
      have hxu := rescaleCoord_le_side d.box.2.2.1 width (by omega) hx2
      have hyu := rescaleCoord_le_side d.box.2.2.2 height (by omega) hy2
      dsimp only [rescaleBox]
      rw [padClampBox_eval _ _ _ _ _ _ hxm hym]
      dsimp only
      refine ⟨?_, ?_, ?_, ?_, ?_, ?_⟩ <;> omega

/-- C6 amended: under the additional hypothesis that every raw frame box is
ordered and lies inside the 293-unit inference frame, every box returned by
`detect` on a positive-size image satisfies
`0 ≤ x1 < x2 ≤ width` and `0 ≤ y1 < y2 ≤ height`.  (Without the frame-bound
hypothesis the counterexample above violates `x1 < x2`.) -/
theorem C6_box_bounds_amended (frame : List RawDetection) (thresh : ℚ)
    (width height : ℕ) (m : List (String × Box)) (hW : 0 < width)
    (hH : 0 < height)
    (hframe : ∀ d ∈ frame,
      0 ≤ d.box.1 ∧ d.box.1 ≤ d.box.2.2.1 ∧ d.box.2.2.1 ≤ 293 ∧
      0 ≤ d.box.2.1 ∧ d.box.2.1 ≤ d.box.2.2.2 ∧ d.box.2.2.2 ≤ 293)
    (hok : detect frame thresh width height = Except.ok m) :
    ∀ p ∈ m, 0 ≤ p.2.1 ∧ p.2.1 < p.2.2.2.1 ∧ p.2.2.2.1 ≤ width ∧
      0 ≤ p.2.2.1 ∧ p.2.2.1 < p.2.2.2.2 ∧ p.2.2.2.2 ≤ height := by
  intro p hp
  unfold detect at hok
  dsimp only at hok
  split at hok
  · cases hok
  · injection hok with h2
    rw [← h2] at hp
    rcases mem_detectFold hp with h3 | ⟨d, hd, hpd⟩
    · cases h3
    · exact processDet_box_bounds hW hH (hframe d hd) hpd

/-- C6 amended witness: a concrete in-frame detection on a 293×293 image. -/
theorem C6_box_bounds_amended_witness :
    (0 : ℤ) ≤ 8 ∧ (8 : ℤ) < 52 ∧ (52 : ℤ) ≤ 293 ∧
    (0 : ℤ) ≤ 8 ∧ (8 : ℤ) < 52 ∧ (52 : ℤ) ≤ 293 := by
  have h := C6_box_bounds_amended [⟨(10, 10, 50, 50), 1, 1⟩] (1 / 4) 293 293
    [("Add1", (8, 8, 52, 52))] (by norm_num) (by norm_num)
    (by
      intro d hd
      rw [List.mem_singleton.1 hd]
      refine ⟨by norm_num, by norm_num, by norm_num, by norm_num, by norm_num,
        by norm_num⟩)
    detect_example_add1 ("Add1", (8, 8, 52, 52)) (by decide)
  exact h

lemma le_pyInt_toNat_of_le (q : ℚ) (n : ℕ) (hq : (n : ℚ) ≤ q) :
    n ≤ (pyInt q).toNat := by
  have h0 : (0 : ℚ) ≤ q := le_trans (by positivity) hq
  unfold pyInt
  rw [if_neg (not_lt.mpr h0)]
  have hf : (n : ℤ) ≤ Int.floor q := Int.le_floor.2 (by exact_mod_cast hq)
  omega

/-- C4: the per-crop sizing policy of `crop_regions`.  A `Num1` crop first
has both dimensions doubled; then if either dimension exceeds the max size
the crop is downscaled so the larger dimension equals max size; otherwise if
either dimension is below 32 it is upscaled uniformly so both dimensions
reach at least 64.  In particular `1000×500` with max size 800 becomes
`800×400`, `20×40` becomes `64×128` (≥ `64×128`, 1:2 ratio preserved), and a
`50×20` `Num1` crop becomes `100×40`, untouched by the max/min rules. -/
theorem C4_crop_sizing_policy :
    cropResize "Add1" 800 1000 500 = (800, 400) ∧
    cropResize "Add1" 800 20 40 = (64, 128) ∧
    cropResize "Num1" 800 50 20 = (100, 40) ∧
    (∀ (label : String) (maxSize h w : ℕ),
      cropResize label maxSize h w =
        sizeRules maxSize (if label = "Num1" then h * 2 else h)
          (if label = "Num1" then w * 2 else w)) ∧
    (∀ maxSize h w : ℕ, 0 < h → 0 < w → (maxSize < h ∨ maxSize < w) →
      max (sizeRules maxSize h w).1 (sizeRules maxSize h w).2 = maxSize) ∧
    (∀ maxSize h w : ℕ, 0 < h → 0 < w → h ≤ maxSize → w ≤ maxSize →
      (h < 32 ∨ w < 32) →
      64 ≤ (sizeRules maxSize h w).1 ∧ 64 ≤ (sizeRules maxSize h w).2) := by
  refine ⟨?_, ?_, by decide, fun label maxSize h w => rfl, ?_, ?_⟩
  · have hL : cropResize "Add1" 800 1000 500 = sizeRules 800 1000 500 := by
      unfold cropResize
      rw [if_neg (by decide), if_neg (by decide)]
    rw [hL]
    unfold sizeRules
    rw [if_pos (by decide : (800 < 1000 ∨ 800 < 500)),
      if_pos (by decide : 500 < 1000)]
    rw [Prod.mk.injEq]
    exact ⟨rfl, by rw [pyInt_nat_mul_div 500 800 1000]⟩
  · have hL : cropResize "Add1" 800 20 40 = sizeRules 800 20 40 := by
      unfold cropResize
      rw [if_neg (by decide), if_neg (by decide)]
    rw [hL]
    unfold sizeRules
    rw [if_neg (by decide : ¬ (800 < 20 ∨ 800 < 40)),
      if_pos (by decide : (20 < 32 ∨ 40 < 32))]
    dsimp only
    rw [max_eq_left (by norm_num : ((64 : ℚ) / (40 : ℕ)) ≤ (64 : ℚ) / (20 : ℕ)),
      show (64 : ℚ) = ((64 : ℕ) : ℚ) by norm_num, Prod.mk.injEq]
    constructor
    · rw [pyInt_nat_mul_div 20 64 20]
    · rw [pyInt_nat_mul_div 40 64 20]
  · intro maxSize h w hh hw hbig
    unfold sizeRules
    rw [if_pos hbig]
    by_cases hwh : w < h
    · rw [if_pos hwh]
      dsimp only
      refine max_eq_left ?_
      rw [pyInt_nat_mul_div w maxSize h]
      calc w * maxSize / h ≤ h * maxSize / h :=
            Nat.div_le_div_right (Nat.mul_le_mul_right maxSize hwh.le)
        _ = maxSize := Nat.mul_div_cancel_left maxSize hh
    · rw [if_neg hwh]
      dsimp only
      refine max_eq_right ?_
      rw [pyInt_nat_mul_div h maxSize w]
      calc h * maxSize / w ≤ w * maxSize / w :=
            Nat.div_le_div_right (Nat.mul_le_mul_right maxSize (by omega))
        _ = maxSize := Nat.mul_div_cancel_left maxSize hw
  · intro maxSize h w hh hw hhm hwm hsmall
    unfold sizeRules
    rw [if_neg (by omega), if_pos hsmall]
    dsimp only
    have hhq : (0 : ℚ) < (h : ℚ) := by exact_mod_cast hh
    have hwq : (0 : ℚ) < (w : ℚ) := by exact_mod_cast hw
    constructor
    · refine le_pyInt_toNat_of_le _ 64 ?_
      calc ((64 : ℕ) : ℚ) = (h : ℚ) * ((64 : ℚ) / (h : ℚ)) := by
            field_simp
        _ ≤ (h : ℚ) * max ((64 : ℚ) / (h : ℚ)) ((64 : ℚ) / (w : ℚ)) :=
            mul_le_mul_of_nonneg_left (le_max_left _ _) hhq.le
    · refine le_pyInt_toNat_of_le _ 64 ?_
      calc ((64 : ℕ) : ℚ) = (w : ℚ) * ((64 : ℚ) / (w : ℚ)) := by
            field_simp
        _ ≤ (w : ℚ) * max ((64 : ℚ) / (h : ℚ)) ((64 : ℚ) / (w : ℚ)) :=
            mul_le_mul_of_nonneg_left (le_max_right _ _) hwq.le

/-- C4 witness: the minimum-size rule applied to the concrete `20×40` crop. -/
theorem C4_crop_sizing_policy_witness :
    64 ≤ (sizeRules 800 20 40).1 ∧ 64 ≤ (sizeRules 800 20 40).2 :=
  C4_crop_sizing_policy.2.2.2.2.2 800 20 40 (by decide) (by decide)
    (by decide) (by decide) (by decide)

end EgyptianID
